import Mathlib

/-!
Shallow embedding of the astro-audio-visualizer dashboard
(src/src/components/TimeSeriesVisualizer.tsx and the visual components).
Audio samples are modelled as rationals, sample buffers as `List ℚ`,
the recording as `List (List ℚ)`, and the spectrograph history as
`List (List Nat)` of byte vectors.  Component state is modelled as a
structure with the fields of the `AudioVisualizer` component; handlers
become pure state-transition functions.
-/

namespace AstroAudio

/-- State of the `AudioVisualizer` component (TimeSeriesVisualizer.tsx,
lines 834-846).  `audioContext` and `analyser` record whether the
corresponding nodes have been created. -/
structure AudioVisualizerState where
  isRecording : Bool
  audioData : Option (List ℚ)
  audioContext : Bool
  analyser : Bool
  visualizationType : String
  timeScale : ℚ
  gain : ℚ
  showSettings : Bool
  recordedData : List (List ℚ)
  isPlaying : Bool
  playbackIndex : Nat
  deriving Repr, DecidableEq

/-- Gain application from `updateData` (line 879):
`const amplifiedData = dataArray.map(value => value * gain)`. -/
def amplify (gain : ℚ) (dataArray : List ℚ) : List ℚ :=
  dataArray.map (fun value => value * gain)

/-- One animation tick of `updateData` (lines 874-885): publish the
gain-scaled buffer as `audioData` and append a copy to `recordedData`. -/
def updateData (dataArray : List ℚ) (s : AudioVisualizerState) : AudioVisualizerState :=
  { s with
    audioData := some (amplify s.gain dataArray)
    recordedData := s.recordedData ++ [amplify s.gain dataArray] }

/-- Folding `updateData` over a sequence of raw per-tick buffers. -/
def recordTicks (bufs : List (List ℚ)) (s : AudioVisualizerState) : AudioVisualizerState :=
  bufs.foldl (fun st d => updateData d st) s

/-- `handleStartRecording` (lines 894-901): set `isRecording` and clear
`recordedData`.  The toast is a pure notification and carries no state. -/
def handleStartRecording (s : AudioVisualizerState) : AudioVisualizerState :=
  { s with isRecording := true, recordedData := [] }

/-- `Float32Array.prototype.set(src, offset)` on a list model: overwrite
`dst` starting at `offset` with the elements of `src`. -/
def writeAt (dst src : List ℚ) (offset : Nat) : List ℚ :=
  dst.take offset ++ src ++ dst.drop (offset + src.length)

/-- The merge loop of `handleSaveRecording` (lines 916-920):
`recordedData.forEach(array => { mergedArray.set(array, offset); offset += array.length })`. -/
def mergeLoop : List (List ℚ) → List ℚ → Nat → List ℚ
  | [], dst, _ => dst
  | a :: rest, dst, offset => mergeLoop rest (writeAt dst a offset) (offset + a.length)

/-- `mergedArray` of `handleSaveRecording` (line 914): a fresh zero-filled
`Float32Array` whose length is the sum of the buffer lengths, filled by
the merge loop. -/
def mergedArray (recordedData : List (List ℚ)) : List ℚ :=
  mergeLoop recordedData (List.replicate (recordedData.map List.length).sum 0) 0

/-- The observable effect of a successful save: the blob contents and the
confirmation toast (lines 922-939). -/
structure SaveEffect where
  blob : List ℚ
  toastShown : Bool
  deriving Repr, DecidableEq

/-- `handleSaveRecording` (lines 911-940): early return on an empty
recording, otherwise emit the merged blob and a toast.  The handler never
writes component state. -/
def handleSaveRecording (s : AudioVisualizerState) : AudioVisualizerState × Option SaveEffect :=
  if s.recordedData.length = 0 then (s, none)
  else (s, some { blob := mergedArray s.recordedData, toastShown := true })

/-- Result of `navigator.mediaDevices.getUserMedia`. -/
inductive AcquireResult where
  | success
  | failure (err : String)
  deriving Repr, DecidableEq

/-- The audio-setup effect (lines 849-867): when recording with no
context yet, create the context; on stream success install the analyser,
on failure log the error and reset `isRecording`.  The second component
is the console log. -/
def setupAudioEffect (r : AcquireResult) (s : AudioVisualizerState) :
    AudioVisualizerState × List String :=
  if s.isRecording && !s.audioContext then
    let s1 := { s with audioContext := true }
    match r with
    | .success => ({ s1 with analyser := true }, [])
    | .failure err =>
        ({ s1 with isRecording := false }, ["Error accessing audio device: " ++ err])
  else (s, [])

/-- The spectrograph history cap, `historyLengthRef.current` (line 332). -/
def historyLength : Nat := 300

/-- One 256-bin vector of `processSpectrum` (lines 344-356).  Bin `i`
reads the sample at `Math.floor(i / 256 * audioData.length)` and stores
`Math.min(255, Math.max(0, Math.abs(sample) * 1000))`; the `Uint8Array`
element store truncates the fractional part, hence the outer floor. -/
def spectrumBuffer (audioData : List ℚ) : List Nat :=
  (List.range 256).map (fun i =>
    let sampleIndex := i * audioData.length / 256
    if h : sampleIndex < audioData.length then
      Nat.floor (min 255 (max 0 (|audioData.get ⟨sampleIndex, h⟩| * 1000)))
    else 0)

/-- The intensity formula exactly as the specification words it: the
clamped rational value `min(255, max(0, |audioData[floor(i/256 * length)]| * 1000))`,
with no truncation to an integer. -/
def specClaimedIntensity (audioData : List ℚ) (i : Nat) : ℚ :=
  min 255 (max 0 (|audioData.getD (i * audioData.length / 256) 0| * 1000))

/-- The history update of `processSpectrum` (lines 358-366): prepend the
new vector and truncate to the cap. -/
def processSpectrum (audioData : List ℚ) (prev : List (List Nat)) : List (List Nat) :=
  let newHistory := spectrumBuffer audioData :: prev
  if newHistory.length > historyLength then newHistory.take historyLength
  else newHistory

/-- The per-tick data point of `TimeSeriesVisualizer` (line 18): mean
absolute amplitude of the buffer. -/
def newDataPoint (audioData : List ℚ) : ℚ :=
  (audioData.map (fun value => |value|)).sum / (audioData.length : ℚ)

/-- The accumulation step of `TimeSeriesVisualizer` (lines 20-27): append
the new point and keep only the last 500. -/
def timeSeriesStep (audioData : List ℚ) (prev : List ℚ) : List ℚ :=
  let newData := prev ++ [newDataPoint audioData]
  if newData.length > 500 then newData.drop (newData.length - 500)
  else newData

/-- Application state joining the `AudioVisualizer` state with the
child-component accumulations (spectrograph history and time series). -/
structure AppState where
  main : AudioVisualizerState
  spectrumHistory : List (List Nat)
  timeSeriesData : List ℚ
  deriving Repr, DecidableEq

/-- The tab switch, `Tabs onValueChange={setVisualizationType}`
(line 1036): store the selected value, touch nothing else. -/
def tabSwitch (v : String) (st : AppState) : AppState :=
  { st with main := { st.main with visualizationType := v } }

/-- A concrete component state used to instantiate theorems with
hypotheses. -/
def exState : AudioVisualizerState :=
  { isRecording := true
    audioData := none
    audioContext := true
    analyser := true
    visualizationType := "waveform"
    timeScale := 1
    gain := 2
    showSettings := false
    recordedData := []
    isPlaying := false
    playbackIndex := 0 }

theorem writeAt_length (dst src : List ℚ) (offset : Nat)
    (h : offset + src.length ≤ dst.length) :
    (writeAt dst src offset).length = dst.length := by
  simp only [writeAt, List.length_append, List.length_take, List.length_drop]
  omega

theorem mergeLoop_eq (bufs : List (List ℚ)) : ∀ (dst : List ℚ) (offset : Nat),
    offset + (bufs.map List.length).sum ≤ dst.length →
    mergeLoop bufs dst offset =
      dst.take offset ++ bufs.flatten ++ dst.drop (offset + (bufs.map List.length).sum) := by
  induction bufs with
  | nil =>
    intro dst offset _
    simp [mergeLoop]
  | cons a rest ih =>
    intro dst offset h
    have hsum : ((a :: rest).map List.length).sum = a.length + (rest.map List.length).sum := by
      simp
    have ha : offset + a.length ≤ dst.length := by omega
    have htk : (dst.take offset).length = offset := by
      simp only [List.length_take]
      omega
    have hlen : (writeAt dst a offset).length = dst.length := writeAt_length dst a offset ha
    have hrest : offset + a.length + (rest.map List.length).sum ≤ (writeAt dst a offset).length := by
      rw [hlen]; omega
    rw [mergeLoop, ih (writeAt dst a offset) (offset + a.length) hrest]
    have hfirst : ((dst.take offset ++ a)).length = offset + a.length := by
      simp only [List.length_append]
      omega
    have htake : (writeAt dst a offset).take (offset + a.length) = dst.take offset ++ a := by
      have : writeAt dst a offset = (dst.take offset ++ a) ++ dst.drop (offset + a.length) := by
        simp [writeAt, List.append_assoc]
      rw [this, List.take_left' hfirst]
    have hdrop : (writeAt dst a offset).drop (offset + a.length + (rest.map List.length).sum) =
        dst.drop (offset + a.length + (rest.map List.length).sum) := by
      have h1 : writeAt dst a offset = (dst.take offset ++ a) ++ dst.drop (offset + a.length) := by
        simp [writeAt, List.append_assoc]
      rw [h1]
      have h2 : (offset + a.length + (rest.map List.length).sum) =
          (dst.take offset ++ a).length + (rest.map List.length).sum := by
        rw [hfirst]
      rw [h2, List.drop_append, List.drop_drop, hfirst]
    rw [htake, hdrop, hsum]
    simp [List.append_assoc, Nat.add_assoc]

theorem mergedArray_eq_flatten (recordedData : List (List ℚ)) :
    mergedArray recordedData = recordedData.flatten := by
  have h : (0 : Nat) + (recordedData.map List.length).sum ≤
      (List.replicate (recordedData.map List.length).sum (0 : ℚ)).length := by
    simp
  rw [mergedArray, mergeLoop_eq recordedData _ 0 h]
  simp

theorem recordTicks_recordedData (bufs : List (List ℚ)) : ∀ (s : AudioVisualizerState),
    (recordTicks bufs s).recordedData = s.recordedData ++ bufs.map (amplify s.gain) ∧
    (recordTicks bufs s).gain = s.gain := by
  induction bufs with
  | nil => intro s; simp [recordTicks]
  | cons a rest ih =>
    intro s
    have h := ih (updateData a s)
    simp only [recordTicks, List.foldl_cons] at h ⊢
    rw [h.1, h.2]
    simp [updateData]

/-- A concrete state with a non-empty recording, used to instantiate
theorems with hypotheses. -/
def wState1 : AudioVisualizerState :=
  { exState with recordedData := [[1, 2], [3]] }

/-- C1: for every non-empty list of recorded sample buffers,
`handleSaveRecording` emits a blob equal to the in-order concatenation of
those buffers, whose length is the sum of the individual buffer lengths. -/
theorem save_merges_in_order (s : AudioVisualizerState) (h : s.recordedData ≠ []) :
    ∃ eff : SaveEffect, (handleSaveRecording s).2 = some eff ∧
      eff.blob = s.recordedData.flatten ∧
      eff.blob.length = (s.recordedData.map List.length).sum := by
  have hne : ¬ s.recordedData.length = 0 := by
    simpa [List.length_eq_zero] using h
  refine ⟨{ blob := mergedArray s.recordedData, toastShown := true }, ?_, ?_, ?_⟩
  · simp [handleSaveRecording, hne]
  · exact mergedArray_eq_flatten s.recordedData
  · rw [mergedArray_eq_flatten]
    exact List.length_flatten s.recordedData

theorem save_merges_in_order_witness :
    wState1.recordedData ≠ [] ∧
    ∃ eff : SaveEffect, (handleSaveRecording wState1).2 = some eff ∧
      eff.blob = wState1.recordedData.flatten ∧
      eff.blob.length = (wState1.recordedData.map List.length).sum :=
  ⟨by decide, save_merges_in_order wState1 (by decide)⟩

/-- C3: after every `processSpectrum` history update, the spectrum
history has length at most the configured cap of 300 entries, for every
prior history state and every input buffer. -/
theorem spectrum_history_bounded (audioData : List ℚ) (prev : List (List Nat)) :
    (processSpectrum audioData prev).length ≤ historyLength := by
  simp only [processSpectrum]
  split
  next _ =>
    simp only [List.length_take]
    exact Nat.min_le_left historyLength _
  next h => exact Nat.le_of_not_lt h

/-- C4: with an empty recording, `handleSaveRecording` returns early: the
state is unchanged and no blob, download or toast is produced. -/
theorem save_empty_noop (s : AudioVisualizerState) (h : s.recordedData.length = 0) :
    handleSaveRecording s = (s, none) := by
  simp [handleSaveRecording, h]

theorem save_empty_noop_witness :
    exState.recordedData.length = 0 ∧ handleSaveRecording exState = (exState, none) :=
  ⟨rfl, save_empty_noop exState rfl⟩

/-- C5: each animation tick publishes the gain-scaled copy of the raw
buffer as `audioData` (and records it), and the scaled buffer satisfies
`amplifiedData[i] = dataArray[i] * gain` at every index. -/
theorem tick_applies_gain (s : AudioVisualizerState) (dataArray : List ℚ) :
    (updateData dataArray s).audioData = some (amplify s.gain dataArray) ∧
    (updateData dataArray s).recordedData = s.recordedData ++ [amplify s.gain dataArray] ∧
    ∀ i : Nat, (amplify s.gain dataArray)[i]? =
      (dataArray[i]?).map (fun value => value * s.gain) := by
  refine ⟨rfl, rfl, fun i => ?_⟩
  simp [amplify]

/-- C8: switching the visualization tab changes only the
`visualizationType` field; every other field of the application state,
including `recordedData`, `audioData`, the spectrum history and the
time-series history, is unchanged. -/
theorem tab_switch_frame (v : String) (st : AppState) :
    (tabSwitch v st).main.visualizationType = v ∧
    (tabSwitch v st).main.recordedData = st.main.recordedData ∧
    (tabSwitch v st).main.audioData = st.main.audioData ∧
    (tabSwitch v st).spectrumHistory = st.spectrumHistory ∧
    (tabSwitch v st).timeSeriesData = st.timeSeriesData ∧
    (tabSwitch v st).main.isRecording = st.main.isRecording ∧
    (tabSwitch v st).main.gain = st.main.gain ∧
    (tabSwitch v st).main.timeScale = st.main.timeScale ∧
    (tabSwitch v st).main.isPlaying = st.main.isPlaying ∧
    (tabSwitch v st).main.audioContext = st.main.audioContext ∧
    (tabSwitch v st).main.analyser = st.main.analyser ∧
    (tabSwitch v st).main.showSettings = st.main.showSettings ∧
    (tabSwitch v st).main.playbackIndex = st.main.playbackIndex :=
  ⟨rfl, rfl, rfl, rfl, rfl, rfl, rfl, rfl, rfl, rfl, rfl, rfl, rfl⟩

/-- C9: after every time-series accumulation step the list holds at most
500 points — exactly `min (prev.length + 1) 500` — and what is kept is a
suffix of the appended list, i.e. the most recent points in order with
the newest last. -/
theorem time_series_bounded (audioData : List ℚ) (prev : List ℚ) :
    (timeSeriesStep audioData prev).length = min (prev.length + 1) 500 ∧
    List.IsSuffix (timeSeriesStep audioData prev) (prev ++ [newDataPoint audioData]) := by
  simp only [timeSeriesStep]
  split
  next h =>
    refine ⟨?_, List.drop_suffix _ _⟩
    simp only [List.length_drop, List.length_append, List.length_cons, List.length_nil] at *
    omega
  next h =>
    refine ⟨?_, List.suffix_rfl⟩
    simp only [List.length_append, List.length_cons, List.length_nil] at *
    omega

/-- C10: `handleStartRecording` clears the recorded-data list, and a run
of animation ticks started from any prior state records exactly the
buffers captured after the start (each scaled by the current gain). -/
theorem start_resets_recording (s : AudioVisualizerState) (bufs : List (List ℚ)) :
    (handleStartRecording s).recordedData = [] ∧
    (recordTicks bufs (handleStartRecording s)).recordedData = bufs.map (amplify s.gain) := by
  refine ⟨rfl, ?_⟩
  have h := recordTicks_recordedData bufs (handleStartRecording s)
  simpa [handleStartRecording] using h.1

/-- C2 counterexample: with gain 2 (within the slider range 0.1-10) and a
raw sample of 1, the tick publishes the value 2, which is outside
[-1, 1]; the claim that every published value lies in [-1, 1] for every
gain is false. -/
theorem gain_exceeds_unit_counterexample :
    (updateData [1] exState).audioData = some [2] ∧
    ¬ ((-1 : ℚ) ≤ 2 ∧ (2 : ℚ) ≤ 1) := by
  constructor
  · have hg : exState.gain = 2 := rfl
    simp [updateData, amplify, exState]
  · intro h
    have := h.2
    norm_num at this

/-- C2 amended: when the raw buffer values satisfy |v| ≤ 1 and the gain
is non-negative, every published value lies in [-gain, gain]; the bound
[-1, 1] holds only when gain ≤ 1. -/
theorem amplified_bounded_by_gain (gain : ℚ) (dataArray : List ℚ)
    (hg : 0 ≤ gain) (hd : ∀ v ∈ dataArray, |v| ≤ 1) :
    ∀ w ∈ amplify gain dataArray, -gain ≤ w ∧ w ≤ gain := by
  intro w hw
  simp only [amplify, List.mem_map] at hw
  obtain ⟨v, hv, rfl⟩ := hw
  have h1 : |v| ≤ 1 := hd v hv
  have h2 : |v * gain| ≤ gain := by
    rw [abs_mul, abs_of_nonneg hg]
    calc |v| * gain ≤ 1 * gain := mul_le_mul_of_nonneg_right h1 hg
      _ = gain := one_mul gain
  exact abs_le.mp h2

theorem amplified_bounded_by_gain_witness :
    (0 : ℚ) ≤ 2 ∧ (∀ v ∈ [(1 : ℚ)], |v| ≤ 1) ∧
    ∀ w ∈ amplify 2 [(1 : ℚ)], -2 ≤ w ∧ w ≤ 2 :=
  ⟨by norm_num, by decide, amplified_bounded_by_gain 2 [1] (by norm_num) (by decide)⟩

/-- C6: on any failure of the audio-input acquisition, the setup effect
logs the error and resets `isRecording` to false (touching nothing but
the already-created audio context), and a reset of `isRecording` can only
come from the failure branch — the single handled failure path. -/
theorem acquire_failure_resets (s : AudioVisualizerState) (err : String)
    (h1 : s.isRecording = true) (h2 : s.audioContext = false) :
    (setupAudioEffect (.failure err) s).1 =
      { s with audioContext := true, isRecording := false } ∧
    (setupAudioEffect (.failure err) s).2 = ["Error accessing audio device: " ++ err] ∧
    (∀ r : AcquireResult, (setupAudioEffect r s).1.isRecording = false →
      ∃ e, r = AcquireResult.failure e) := by
  refine ⟨?_, ?_, ?_⟩
  · simp [setupAudioEffect, h1, h2]
  · simp [setupAudioEffect, h1, h2]
  · intro r hr
    cases r with
    | success => simp [setupAudioEffect, h1, h2] at hr
    | failure e => exact ⟨e, rfl⟩

/-- A concrete state that is recording but has no audio context yet. -/
def exState2 : AudioVisualizerState :=
  { exState with audioContext := false, analyser := false }

theorem acquire_failure_resets_witness :
    exState2.isRecording = true ∧ exState2.audioContext = false ∧
    ((setupAudioEffect (.failure "NotAllowedError") exState2).1 =
      { exState2 with audioContext := true, isRecording := false } ∧
     (setupAudioEffect (.failure "NotAllowedError") exState2).2 =
       ["Error accessing audio device: " ++ "NotAllowedError"] ∧
     (∀ r : AcquireResult, (setupAudioEffect r exState2).1.isRecording = false →
       ∃ e, r = AcquireResult.failure e)) :=
  ⟨rfl, rfl, acquire_failure_resets exState2 "NotAllowedError" rfl rfl⟩

theorem processSpectrum_cons_take (audioData : List ℚ) (prev : List (List Nat)) :
    processSpectrum audioData prev =
      spectrumBuffer audioData :: prev.take (historyLength - 1) := by
  simp only [processSpectrum, historyLength, List.length_cons]
  split
  next h =>
    show List.take 300 _ = _
    rw [show (300 : Nat) = 299 + 1 from rfl, List.take_succ_cons]
  next h =>
    rw [List.take_of_length_le (by omega)]

theorem spectrumBuffer_getElem (audioData : List ℚ) (i : Nat) (hi : i < 256) :
    (spectrumBuffer audioData)[i]? =
      some (Nat.floor (specClaimedIntensity audioData i)) := by
  simp only [spectrumBuffer, List.getElem?_map, List.getElem?_range hi, Option.map_some']
  congr 1
  by_cases hlen : audioData.length = 0
  · have hidx0 : i * audioData.length / 256 = 0 := by
      rw [hlen]
      simp
    have hng : ¬ (i * audioData.length / 256 < audioData.length) := by
      rw [hidx0, hlen]
      omega
    rw [dif_neg hng]
    have hD : audioData.getD (i * audioData.length / 256) 0 = 0 := by
      apply List.getD_eq_default
      omega
    rw [specClaimedIntensity, hD]
    simp
  · have hpos : 0 < audioData.length := Nat.pos_of_ne_zero hlen
    have hidx : i * audioData.length / 256 < audioData.length := by
      apply Nat.div_lt_of_lt_mul
      calc i * audioData.length ≤ 255 * audioData.length :=
            Nat.mul_le_mul_right _ (by omega)
        _ < 256 * audioData.length := (Nat.mul_lt_mul_right hpos).mpr (by norm_num)
    rw [dif_pos hidx, specClaimedIntensity]
    have hD : audioData.getD (i * audioData.length / 256) 0 =
        audioData.get ⟨i * audioData.length / 256, hidx⟩ := by
      simp [List.getD_eq_getElem?_getD, List.getElem?_eq_getElem hidx]
    rw [hD]

/-- C7 corrected: after each `processSpectrum` update the newest vector
is at the front with the previous entries following, truncated to the
cap; each entry is a 256-element vector of bytes in [0, 255]; and the
stored intensity at bin `i` is the integer truncation (floor) of the
spec's clamped value `min(255, max(0, |audioData[floor(i/256*length)]| * 1000))`
— not the clamped rational value itself, because the byte store into the
`Uint8Array` drops the fractional part. -/
theorem spectrum_entries_corrected (audioData : List ℚ) (prev : List (List Nat)) :
    processSpectrum audioData prev =
      spectrumBuffer audioData :: prev.take (historyLength - 1) ∧
    (spectrumBuffer audioData).length = 256 ∧
    (∀ x ∈ spectrumBuffer audioData, x ≤ 255) ∧
    (∀ i : Nat, i < 256 →
      (spectrumBuffer audioData)[i]? =
        some (Nat.floor (specClaimedIntensity audioData i))) := by
  refine ⟨processSpectrum_cons_take audioData prev, ?_, ?_,
    fun i hi => spectrumBuffer_getElem audioData i hi⟩
  · simp [spectrumBuffer]
  · intro x hx
    simp only [spectrumBuffer, List.mem_map] at hx
    obtain ⟨i, _, rfl⟩ := hx
    split
    · calc Nat.floor (min 255 (max 0 (|audioData.get _| * 1000)))
          ≤ Nat.floor ((255 : ℚ)) := Nat.floor_le_floor (min_le_left _ _)
        _ = 255 := by norm_num
    · omega

theorem spectrum_entries_corrected_witness :
    processSpectrum [(1 : ℚ)/8192] [] =
      spectrumBuffer [(1 : ℚ)/8192] :: ([] : List (List Nat)).take (historyLength - 1) ∧
    (spectrumBuffer [(1 : ℚ)/8192]).length = 256 ∧
    (∀ x ∈ spectrumBuffer [(1 : ℚ)/8192], x ≤ 255) ∧
    (∀ i : Nat, i < 256 →
      (spectrumBuffer [(1 : ℚ)/8192])[i]? =
        some (Nat.floor (specClaimedIntensity [(1 : ℚ)/8192] i))) :=
  spectrum_entries_corrected [(1 : ℚ)/8192] []

/-- C7 counterexample: on the buffer `[1/8192]` the stored byte at bin 0
is 0, while the spec's clamped-value formula gives 125/1024 ≠ 0, so the
stored intensity does not equal the clamped value as the claim states. -/
theorem spectrum_entry_counterexample :
    (spectrumBuffer [(1 : ℚ)/8192])[0]? = some 0 ∧
    specClaimedIntensity [(1 : ℚ)/8192] 0 = 125/1024 ∧
    ((0 : ℚ) ≠ 125/1024) := by
  have hval : specClaimedIntensity [(1 : ℚ)/8192] 0 = 125/1024 := by
    rw [specClaimedIntensity]
    have hget : ([(1 : ℚ)/8192].getD (0 * ([(1 : ℚ)/8192] : List ℚ).length / 256) 0) =
        1/8192 := by
      norm_num
    rw [hget, abs_of_nonneg (by norm_num : (0 : ℚ) ≤ 1/8192)]
    rw [show (1 : ℚ)/8192 * 1000 = 125/1024 by norm_num]
    rw [max_eq_right (by norm_num : (0 : ℚ) ≤ 125/1024)]
    rw [min_eq_right (by norm_num : (125 : ℚ)/1024 ≤ 255)]
  refine ⟨?_, hval, by norm_num⟩
  rw [spectrumBuffer_getElem [(1 : ℚ)/8192] 0 (by norm_num), hval]
  rw [Nat.floor_eq_zero.mpr (by norm_num)]

end AstroAudio
